import Mathlib

/-!
Verification of the flight-scraper core (`src/app.py`) against its
natural-language specification.  The Python source is shallowly embedded:
pure string manipulation (URL building, regex-based field extraction) is
translated to executable Lean functions over `String`/`List Char`; the
process-wide rate-limiter state is modelled by explicit state passing with
time as `ℚ`; the fetch/extract orchestration is a pure function of an
abstract fetch result.  HTML documents are modelled at the granularity at
which the source queries them: a result block is represented by the results
of the individual BeautifulSoup queries the extractor performs on it.
-/

namespace FlightApp

/-! ### Python string primitives used by the source -/

/-- Whitespace characters stripped by Python's `str.strip` (ASCII range). -/
def isPySpace (c : Char) : Bool :=
  c == ' ' || c == '\t' || c == '\n' || c == '\r' || c == '\x0b' || c == '\x0c'

/-- `str.strip` on a character list: drop whitespace from both ends. -/
def stripL (l : List Char) : List Char :=
  ((l.dropWhile isPySpace).reverse.dropWhile isPySpace).reverse

/-- Python `str.strip`. -/
def pyStrip (s : String) : String := ⟨stripL s.data⟩

/-- Python `str.lower` restricted to ASCII input (all inputs here are ASCII). -/
def asciiLower (s : String) : String := ⟨s.data.map Char.toLower⟩

/-- Decide whether `pat` begins the list `l`. -/
def isPrefixL : List Char → List Char → Bool
  | [], _ => true
  | _ :: _, [] => false
  | a :: as, b :: bs => a == b && isPrefixL as bs

/-- Decide whether `pat` occurs contiguously anywhere in `l`
(Python's `pat in s` substring test). -/
def containsL (pat : List Char) : List Char → Bool
  | [] => isPrefixL pat []
  | c :: t => isPrefixL pat (c :: t) || containsL pat t

/-- Python substring test `pat in s`. -/
def containsSub (pat s : String) : Bool := containsL pat.data s.data

/-! ### Query Encoder: `build_search_url` (src/app.py lines 80-143)

The source builds `base_url + "&".join(["hl=en", "q=" + quote_plus(q)])`
where `q` is the human-readable query sentence; the earlier `tfs`
parameter list is discarded at line 137. -/

/-- Uppercase hexadecimal digit for `n < 16`, as produced by Python's
percent-encoding. -/
def hexDigit (n : Nat) : Char :=
  if n < 10 then Char.ofNat (48 + n) else Char.ofNat (55 + n)

/-- Characters `urllib.parse.quote_plus` leaves unescaped: ASCII
alphanumerics and `_ . - ~`. -/
def quoteSafe (c : Char) : Bool :=
  c.isAlphanum || c == '_' || c == '.' || c == '-' || c == '~'

/-- Encoding of one character under `quote_plus`: safe characters are kept,
a space becomes `+`, anything else is percent-encoded.  (For the ASCII
inputs used here the code point equals the UTF-8 byte.) -/
def quotePlusChar (c : Char) : List Char :=
  if quoteSafe c then [c]
  else if c == ' ' then ['+']
  else ['%', hexDigit (c.toNat / 16), hexDigit (c.toNat % 16)]

/-- `quote_plus` over a character list. -/
def quotePlusL : List Char → List Char
  | [] => []
  | c :: t => quotePlusChar c ++ quotePlusL t

/-- Python `urllib.parse.quote_plus`. -/
def quote_plus (s : String) : String := ⟨quotePlusL s.data⟩

/-- `GOOGLE_FLIGHTS_BASE_URL` (src/app.py line 25). -/
def GOOGLE_FLIGHTS_BASE_URL : String := "https://www.google.com/travel/flights"

/-- `build_search_url` (src/app.py lines 80-143).  The date arguments are
taken as already-formatted strings (the `datetime` branch of the source
only reformats a `datetime` into the same `YYYY-MM-DD` string). -/
def build_search_url (origin destination date : String)
    (return_date : Option String) (adults : Nat) : String :=
  let base_url := GOOGLE_FLIGHTS_BASE_URL ++ "/search?"
  let query_string := "flights from " ++ origin ++ " to " ++ destination ++ " on " ++ date
  let query_string :=
    if 1 < adults then query_string ++ " for " ++ toString adults ++ " adults"
    else query_string
  let query_string :=
    match return_date with
    | some r => query_string ++ " returning on " ++ r
    | none => query_string
  base_url ++ "hl=en&" ++ "q=" ++ quote_plus query_string

/-! ### Regular expressions used by the extractor

Each regex of `extract_flight_data` is translated to an executable function
with Python `re` semantics (leftmost match, greedy quantifiers) on the exact
pattern the source uses. -/

/-- Maximal run of decimal digits at the front of the list, with the rest:
the greedy `\d+`. -/
def digitRun : List Char → List Char × List Char
  | [] => ([], [])
  | c :: t =>
    if c.isDigit then
      let r := digitRun t
      (c :: r.1, r.2)
    else ([], c :: t)

/-- Maximal run of whitespace at the front of the list, with the rest:
the greedy `\s+`. -/
def spaceRun : List Char → List Char × List Char
  | [] => ([], [])
  | c :: t =>
    if isPySpace c then
      let r := spaceRun t
      (c :: r.1, r.2)
    else ([], c :: t)

/-- Two decimal digits at the front of the list (`\d{2}`). -/
def twoDigitsL : List Char → Bool
  | a :: b :: _ => a.isDigit && b.isDigit
  | _ => false

/-- `re.match(r'\d{1,2}:\d{2}(\s*(?:AM|PM))?', s)` viewed as a Bool: the
pattern is anchored at the start and the optional meridiem group cannot
affect overall success. -/
def timeMatchL : List Char → Bool
  | a :: b :: rest =>
    a.isDigit &&
      (if b == ':' then twoDigitsL rest
       else if b.isDigit then
         match rest with
         | c :: rest2 => c == ':' && twoDigitsL rest2
         | [] => false
       else false)
  | _ => false

/-- Greedy `\d{1,3}`: up to three digits from the front, with the rest. -/
def upToThreeDigits : List Char → List Char × List Char
  | [] => ([], [])
  | a :: t =>
    if a.isDigit then
      match t with
      | [] => ([a], [])
      | b :: t2 =>
        if b.isDigit then
          match t2 with
          | [] => ([a, b], [])
          | c :: t3 => if c.isDigit then ([a, b, c], t3) else ([a, b], c :: t3)
        else ([a], b :: t2)
    else ([], a :: t)

/-- Greedy `(?:,\d{3})*`: as many groups of a comma followed by exactly
three digits as possible, with the rest. -/
def commaGroups : List Char → List Char × List Char
  | ',' :: a :: b :: c :: rest =>
    if a.isDigit && b.isDigit && c.isDigit then
      let r := commaGroups rest
      (',' :: a :: b :: c :: r.1, r.2)
    else ([], ',' :: a :: b :: c :: rest)
  | l => ([], l)

/-- Greedy `(?:\.\d{2})?`: a dot followed by exactly two digits, or nothing. -/
def centsOpt : List Char → List Char
  | '.' :: a :: b :: _ => if a.isDigit && b.isDigit then ['.', a, b] else []
  | _ => []

/-- Attempt of the price pattern right after a `$`: `\s?` then the capture
group `\d{1,3}(?:,\d{3})*(?:\.\d{2})?`.  Returns the captured group.  The
optional whitespace is consumed exactly when a digit follows it (the only
way the backtracking match can succeed). -/
def priceAfterDollar (l : List Char) : Option (List Char) :=
  let start :=
    match l with
    | c :: t =>
      if c.isDigit then some (c :: t)
      else if isPySpace c then
        match t with
        | d :: t2 => if d.isDigit then some (d :: t2) else none
        | [] => none
      else none
    | [] => none
  match start with
  | none => none
  | some l1 =>
    let p1 := upToThreeDigits l1
    let p2 := commaGroups p1.2
    some (p1.1 ++ p2.1 ++ centsOpt p2.2)

/-- `re.search(r'\$\s?(\d{1,3}(?:,\d{3})*(?:\.\d{2})?)', s)`, returning the
leftmost match's capture group (`match.group(1)`). -/
def priceSearchL : List Char → Option (List Char)
  | [] => none
  | c :: t =>
    if c == '$' then
      match priceAfterDollar t with
      | some g => some g
      | none => priceSearchL t
    else priceSearchL t

/-- `re.search(r'\d+h(\s+\d+m)?', s)` viewed as a Bool: a match exists iff
some digit is immediately followed by `h`. -/
def hasDurationShape : List Char → Bool
  | a :: b :: t => (a.isDigit && b == 'h') || hasDurationShape (b :: t)
  | _ => false

/-- `re.search(r'(\d+\s+stops)', s)`, returning the leftmost match: a
maximal digit run, a nonempty whitespace run, then the literal `stops`. -/
def stopsSearchL : List Char → Option (List Char)
  | [] => none
  | c :: t =>
    if c.isDigit then
      let ds := digitRun (c :: t)
      let ws := spaceRun ds.2
      if !ws.1.isEmpty && isPrefixL "stops".data ws.2 then
        some (ds.1 ++ ws.1 ++ "stops".data)
      else stopsSearchL t
    else stopsSearchL t

/-! ### The Record Assembler's view of a result block

`extract_flight_data` (src/app.py lines 145-294) touches one container only
through a fixed set of BeautifulSoup queries; a `ResultBlock` records the
result of each such query.  An element is represented by the two attributes
the source reads from it. -/

/-- An HTML element as used by the extractor: its `aria-label` attribute
(`""` when the attribute is missing, matching `get('aria-label', '')`) and
its visible text. -/
structure Elem where
  ariaLabel : String
  text : String
deriving DecidableEq

/-- An `img` element; only its `alt` attribute is read. -/
structure Img where
  alt : String
deriving DecidableEq

/-- One `div.segment-class-placeholder` segment: the texts of its optional
departure-time and arrival-time child elements (src/app.py lines 212-223). -/
structure Segment where
  depText : Option String
  arrText : Option String
deriving DecidableEq

/-- One candidate flight container, given by the results of the queries
`extract_flight_data` performs on it:
`priceEl` = `select_one('div[aria-label*="$"], span[aria-label*="$"]')`,
`airlineEl` = the airline-class/aria selector of line 189,
`logoImg` = `select_one('img[alt*="logo"]')`,
`segments` = `select('div.segment-class-placeholder')`,
`spans` = the texts of `find_all('span')`,
`textNodes` = `find_all(string=True)`,
`durationEl` = the Duration aria selector of line 239,
`stopsEl` = the stop aria selector of line 252. -/
structure ResultBlock where
  priceEl : Option Elem
  airlineEl : Option Elem
  logoImg : Option Img
  segments : List Segment
  spans : List String
  textNodes : List String
  durationEl : Option Elem
  stopsEl : Option Elem
deriving DecidableEq

/-- Python truthiness of an optional string: `None` and `""` are falsy. -/
def pyTruthy : Option String → Bool
  | none => false
  | some s => !(s == "")

/-- Python falsiness of an optional string (`not x`). -/
def pyFalsy (o : Option String) : Bool := !(pyTruthy o)

/-- Python `str.replace("logo", "")`: remove every non-overlapping
occurrence of `logo`, left to right (src/app.py line 198). -/
def removeLogo : List Char → List Char
  | 'l' :: 'o' :: 'g' :: 'o' :: t => removeLogo t
  | c :: t => c :: removeLogo t
  | [] => []

/-- Price extraction (src/app.py lines 176-185): take the element's
`aria-label` or, when that is empty, its text (`a or b`); search the price
regex; on a match the price is `"$"` plus the captured amount. -/
def extractPrice (b : ResultBlock) : Option String :=
  match b.priceEl with
  | none => none
  | some el =>
    let price_text := if el.ariaLabel == "" then el.text else el.ariaLabel
    match priceSearchL price_text.data with
    | some g => some ("$" ++ String.mk g)
    | none => none

/-- Airline extraction (src/app.py lines 188-198): the element's stripped
text; when that is empty, fall back to a logo image whose lowered `alt`
contains `airline`, removing `logo` from the `alt` text. -/
def extractAirline (b : ResultBlock) : Option String :=
  match b.airlineEl with
  | none => none
  | some el =>
    let a := pyStrip el.text
    if a == "" then
      match b.logoImg with
      | some img =>
        if containsSub "airline" (asciiLower img.alt) then
          some (pyStrip ⟨removeLogo img.alt.data⟩)
        else some a
      | none => some a
    else some a

/-- The stripped span texts matching the time pattern
(src/app.py lines 227-232). -/
def possibleTimes (spans : List String) : List String :=
  (spans.map pyStrip).filter (fun s => timeMatchL s.data)

/-- Departure/arrival extraction (src/app.py lines 207-235): first the
placeholder segment selectors; then, when either time is falsy, the
span-scan fallback overwrites both when it finds at least two time-shaped
spans. -/
def extractTimes (b : ResultBlock) : Option String × Option String :=
  let dep0 : Option String :=
    match b.segments with
    | [] => none
    | seg :: _ => seg.depText.map pyStrip
  let arr0 : Option String :=
    match b.segments with
    | [] => none
    | seg :: _ => seg.arrText.map pyStrip
  if pyFalsy dep0 || pyFalsy arr0 then
    match possibleTimes b.spans with
    | t1 :: t2 :: _ => (some t1, some t2)
    | _ => (dep0, arr0)
  else (dep0, arr0)

/-- The text-node fallback loop for duration (src/app.py lines 245-249). -/
def durationFallback : List String → Option String
  | [] => none
  | n :: rest =>
    if hasDurationShape (pyStrip n).data then some (pyStrip n)
    else durationFallback rest

/-- Duration extraction (src/app.py lines 239-249): the Duration element's
stripped text, else the first stripped text node matching `\d+h(\s+\d+m)?`. -/
def extractDuration (b : ResultBlock) : Option String :=
  match b.durationEl with
  | some el => some (pyStrip el.text)
  | none => durationFallback b.textNodes

/-- The text-node fallback loop for stops (src/app.py lines 262-271): the
first node containing `nonstop` gives `"Nonstop"`; otherwise the first node
containing `stop` together with a digit is taken verbatim (stripped). -/
def stopsFallback : List String → String
  | [] => "Nonstop"
  | n :: rest =>
    let tc := asciiLower (pyStrip n)
    if containsSub "nonstop" tc then "Nonstop"
    else if containsSub "stop" tc && tc.data.any Char.isDigit then pyStrip n
    else stopsFallback rest

/-- Stops extraction (src/app.py lines 251-271), labelled-element branch
plus the raw text-node fallback; defaults to `"Nonstop"`. -/
def extractStops (b : ResultBlock) : String :=
  match b.stopsEl with
  | some el =>
    let st := asciiLower (pyStrip el.text)
    if containsSub "nonstop" st then "Nonstop"
    else if containsSub "1 stop" st then "1 stop"
    else
      match stopsSearchL st.data with
      | some g => String.mk g
      | none => "Nonstop"
  | none => stopsFallback b.textNodes

/-- A flight record as assembled at src/app.py lines 275-282. -/
structure FlightRecord where
  airline : String
  departure_time : String
  arrival_time : String
  duration : String
  stops : String
  price : String
deriving DecidableEq

/-- Processing of one container (src/app.py lines 174-290): run the field
extractors and emit a record exactly when price, airline, both times and
duration are all truthy; a block failing the gate (or raising, which the
source turns into `continue`) contributes nothing. -/
def processBlock (b : ResultBlock) : Option FlightRecord :=
  let price := extractPrice b
  let airline := extractAirline b
  let dep := (extractTimes b).1
  let arr := (extractTimes b).2
  let duration := extractDuration b
  if pyTruthy price && pyTruthy airline && pyTruthy dep && pyTruthy arr &&
      pyTruthy duration then
    some ⟨airline.getD "", dep.getD "", arr.getD "", duration.getD "",
      extractStops b, price.getD ""⟩
  else none

/-- `extract_flight_data` over the detected containers: the records of the
blocks that pass the completeness gate, in page order. -/
def extract_flight_data (blocks : List ResultBlock) : List FlightRecord :=
  blocks.filterMap processBlock

/-! ### Search Orchestrator: `scrape_flights` (src/app.py lines 296-346)

The network fetch is abstracted into a `FetchResult` input: either a
response with a status code and the blocks the fetched body parses into,
or a transport-level `requests` exception with its message.  The wall-clock
timestamp written into a success result is likewise an input. -/

/-- Outcome of the single `requests.get` a scrape performs. -/
inductive FetchResult where
  | ok (status : Nat) (blocks : List ResultBlock)
  | transportError (msg : String)
deriving DecidableEq

/-- The result envelope of `scrape_flights`: the success dictionary of
lines 331-339 (field for field, in source order) or the error dictionary. -/
inductive Outcome where
  | success (origin destination date : String) (return_date : Option String)
      (flights : List FlightRecord) (timestamp : String) (results_count : Nat)
  | failure (error : String)
deriving DecidableEq

/-- The non-200 error message built at src/app.py line 320. -/
def statusFailMsg (status : Nat) : String :=
  "Failed to fetch data from Google Flights: Status code " ++ toString status ++
    ". The page structure may have changed or access was blocked."

/-- `scrape_flights` (src/app.py lines 296-346) as a function of the fetch
result: a transport exception maps to the error envelope of line 343; a
response with status other than 200 maps to the error envelope of line 320;
a 200 response is extracted and wrapped in the success envelope of
lines 331-339.  (The pacing call at line 303 only delays; it does not
affect the returned value and is modelled separately below.) -/
def scrape_flights (origin destination date : String)
    (return_date : Option String) (timestamp : String)
    (resp : FetchResult) : Outcome :=
  match resp with
  | .transportError m => .failure ("Request error: " ++ m)
  | .ok status blocks =>
    if status ≠ 200 then .failure (statusFailMsg status)
    else
      let flights := extract_flight_data blocks
      .success origin destination date return_date flights timestamp flights.length

/-! ### Quota Tracker and Pacing Gate: `enforce_rate_limit`
(src/app.py lines 34-62)

Wall-clock instants are modelled as rationals.  The process state is the
`request_timestamps` list plus the current instant.  One call to
`enforce_rate_limit` observes `time.time()` (after a nonnegative `gap`
since the previous call returned), prunes the list to the trailing hour,
sleeps the quota wait when the pruned list has reached the ceiling, sleeps
the `random.uniform(MIN_WAIT_TIME, MAX_WAIT_TIME)` draw `u`, and appends a
fresh `time.time()` reading (`eps ≥ 0` accounts for execution overhead
between the two clock reads beyond the sleeps). -/

/-- `MIN_WAIT_TIME` (src/app.py line 35). -/
def MIN_WAIT_TIME : ℚ := 5

/-- `MAX_WAIT_TIME` (src/app.py line 36). -/
def MAX_WAIT_TIME : ℚ := 10

/-- `MAX_REQUESTS_PER_HOUR` (src/app.py line 37). -/
def MAX_REQUESTS_PER_HOUR : Nat := 20

/-- The rate limiter's process-wide state: the recorded attempt timestamps
in append order, and the current wall-clock instant. -/
structure RL where
  stored : List ℚ
  now : ℚ
deriving DecidableEq

/-- The nondeterministic inputs of one `enforce_rate_limit` call: the time
elapsed before the call reads the clock, the overhead after the sleeps, and
the `random.uniform` draw. -/
structure Call where
  gap : ℚ
  eps : ℚ
  u : ℚ
deriving DecidableEq

/-- The pruning comprehension of src/app.py line 48: keep the timestamps
of the trailing 3600 seconds. -/
def prune (c : ℚ) (l : List ℚ) : List ℚ :=
  l.filter (fun ts => decide (c - ts < 3600))

/-- The conditional quota sleep of src/app.py lines 51-54:
`3600 - (current_time - request_timestamps[0]) + 1` when the pruned list
has reached the hourly ceiling, else no sleep. -/
def quotaSleep (stored : List ℚ) (c : ℚ) : ℚ :=
  if MAX_REQUESTS_PER_HOUR ≤ (prune c stored).length then
    3600 - (c - (prune c stored).headI) + 1
  else 0

/-- One `enforce_rate_limit` call (src/app.py lines 42-62): returns the new
state and the appended timestamp. -/
def enforce_rate_limit (s : RL) (k : Call) : RL × ℚ :=
  let c := s.now + k.gap
  let t := c + quotaSleep s.stored c + k.u + k.eps
  (⟨prune c s.stored ++ [t], t⟩, t)

/-- A sequence of gated fetch attempts: the final state and the timestamps
appended by each call, in order. -/
def rlRun : RL → List Call → RL × List ℚ
  | s, [] => (s, [])
  | s, k :: ks =>
    let step := enforce_rate_limit s k
    let rest := rlRun step.1 ks
    (rest.1, step.2 :: rest.2)

/-- Physically admissible call inputs: time never flows backwards and the
uniform draw lies in the configured interval. -/
def GoodCall (k : Call) : Prop :=
  0 ≤ k.gap ∧ 0 ≤ k.eps ∧ MIN_WAIT_TIME ≤ k.u ∧ k.u ≤ MAX_WAIT_TIME

/-- Membership of a timestamp in the trailing 3600-second window ending
at `T`, with the same strict bound the source's pruning uses. -/
def inWindow (T a : ℚ) : Bool := decide (T - a < 3600) && decide (a ≤ T)

/-- Number of recorded timestamps inside the trailing window ending at `T`. -/
def windowCount (T : ℚ) (l : List ℚ) : Nat := (l.filter (inWindow T)).length

/-- The total delay one pacing-gate acquisition introduces: the conditional
quota sleep plus the unconditional uniform sleep (src/app.py lines 51-59). -/
def totalPacingDelay (s : RL) (k : Call) : ℚ :=
  quotaSleep s.stored (s.now + k.gap) + k.u

/-- Time remaining until the oldest in-window attempt leaves the trailing
window (the spec's "time until the oldest in-window attempt expires"). -/
def timeUntilOldestExpires (stored : List ℚ) (c : ℚ) : ℚ :=
  (prune c stored).headI + 3600 - c

/-! ### Predicates used to state the claims -/

/-- A field value is present in the spec's sense (the locator chain did not
return absent, i.e. the Python variable is not `None`) and non-empty.  The
source's emission gate tests Python truthiness, which is exactly this. -/
def pyPresent (o : Option String) : Prop := ∃ s, o = some s ∧ s ≠ ""

/-- The spec's normalized stop shapes, read literally: `"Nonstop"`,
`"1 stop"`, or a digit run followed by the literal `" stops"`. -/
def isNormalizedStops (s : String) : Bool :=
  s == "Nonstop" || s == "1 stop" ||
  (!(digitRun s.data).1.isEmpty && (digitRun s.data).2 == " stops".data)

/-- The shapes the labelled-element branch of the stops extractor can
produce: `"Nonstop"`, `"1 stop"`, or a digit run, a nonempty whitespace
run, then the literal `stops` (the regex group `\d+\s+stops`). -/
def isLooseNormalizedStops (s : String) : Bool :=
  s == "Nonstop" || s == "1 stop" ||
  (!(digitRun s.data).1.isEmpty && !(spaceRun (digitRun s.data).2).1.isEmpty &&
    (spaceRun (digitRun s.data).2).2 == "stops".data)

/-- No text node of the block carries any stop information: none mentions
`nonstop`, and none mentions `stop` together with a digit — the situation
in which the text-node fallback leaves the `"Nonstop"` default in place. -/
def noStopInfo (nodes : List String) : Bool :=
  nodes.all (fun n =>
    !(containsSub "nonstop" (asciiLower (pyStrip n))) &&
    !(containsSub "stop" (asciiLower (pyStrip n)) &&
      (asciiLower (pyStrip n)).data.any Char.isDigit))

/-- Invariant tying the full history `hist` of appended attempt timestamps
to the limiter state reached after them: every recorded instant lies in the
past; a historic instant still inside the hour either ages past the stored
list only after leaving the window, or is still stored; the stored list is
drawn from the history without duplication; and no trailing hour of the
history holds more than the ceiling. -/
structure RLInv (hist : List ℚ) (s : RL) : Prop where
  bounded : ∀ a ∈ hist, a ≤ s.now
  tracked : ∀ a ∈ hist, a + 3600 ≤ s.now ∨ a ∈ s.stored
  storedSub : s.stored ⊆ hist
  histNodup : hist.Nodup
  storedNodup : s.stored.Nodup
  windowOk : ∀ T, windowCount T hist ≤ MAX_REQUESTS_PER_HOUR

/-! ### Concrete result blocks used by counterexamples and witnesses -/

/-- A container whose airline element exists but has only whitespace text
and no logo fallback: the airline field extracts to the present-but-empty
string, while price, both times and duration extract to nonempty values. -/
def blockEmptyAirline : ResultBlock :=
  { priceEl := some ⟨"$100", "$100"⟩
    airlineEl := some ⟨"", "   "⟩
    logoImg := none
    segments := []
    spans := ["$100", "10:00 AM", "1:00 PM", "5h 30m"]
    textNodes := ["   ", "$100", "10:00 AM", "1:00 PM", "5h 30m"]
    durationEl := some ⟨"Duration 5 hr 30 min", "5h 30m"⟩
    stopsEl := none }

/-- A complete container whose only stop language lives in a plain text
node `"1 stop over JFK"`: no element carries a stop `aria-label`, so the
raw text-node fallback fires. -/
def blockRawStops : ResultBlock :=
  { priceEl := some ⟨"$250", "$250"⟩
    airlineEl := some ⟨"", "Delta"⟩
    logoImg := none
    segments := []
    spans := ["$250", "9:00 AM", "5:00 PM", "8h"]
    textNodes := ["Delta", "$250", "9:00 AM", "5:00 PM", "8h", "1 stop over JFK"]
    durationEl := some ⟨"Duration 8 hours", "8h"⟩
    stopsEl := none }

/-- A container with a labelled stops element reading `"2 stops via ORD"`. -/
def blockLabelledStops : ResultBlock :=
  { priceEl := some ⟨"$410", "$410"⟩
    airlineEl := some ⟨"", "United"⟩
    logoImg := none
    segments := []
    spans := ["$410", "6:00 AM", "2:10 PM"]
    textNodes := ["United", "$410", "6:00 AM", "2:10 PM", "2 stops via ORD"]
    durationEl := some ⟨"Duration", "8h 10m"⟩
    stopsEl := some ⟨"2 stops via ORD", "2 stops via ORD"⟩ }

/-- A container with no stop-related markup anywhere. -/
def blockNoStopMarkup : ResultBlock :=
  { priceEl := some ⟨"$99", "$99"⟩
    airlineEl := some ⟨"", "Alaska"⟩
    logoImg := none
    segments := []
    spans := ["$99", "7:00 AM", "9:00 AM"]
    textNodes := ["Alaska", "$99", "7:00 AM", "9:00 AM", "2h"]
    durationEl := some ⟨"Duration", "2h"⟩
    stopsEl := none }

/-- A fully extractable container, used to show healthy blocks survive a
malformed neighbour. -/
def blockComplete : ResultBlock :=
  { priceEl := some ⟨"$300", "$300"⟩
    airlineEl := some ⟨"", "United"⟩
    logoImg := none
    segments := []
    spans := ["8:00 AM", "11:00 AM"]
    textNodes := ["United", "$300", "8:00 AM", "11:00 AM", "3h", "Nonstop"]
    durationEl := some ⟨"Duration", "3h"⟩
    stopsEl := some ⟨"Nonstop", "Nonstop"⟩ }

/-- A container with no price element at all: it fails the completeness
gate and must be dropped. -/
def blockNoPrice : ResultBlock :=
  { priceEl := none
    airlineEl := some ⟨"", "Spirit"⟩
    logoImg := none
    segments := []
    spans := ["6:00 PM", "9:00 PM"]
    textNodes := ["Spirit", "6:00 PM", "9:00 PM", "3h", "Nonstop"]
    durationEl := some ⟨"Duration", "3h"⟩
    stopsEl := some ⟨"Nonstop", "Nonstop"⟩ }

/-- A container whose markup defeats every extraction strategy: nothing is
extracted, so a page of such blocks yields zero records. -/
def blockUnusable : ResultBlock :=
  { priceEl := none
    airlineEl := none
    logoImg := none
    segments := []
    spans := []
    textNodes := ["advertisement"]
    durationEl := none
    stopsEl := none }

/-- Another fully extractable container, for the orchestrator-envelope
witness. -/
def blockComplete2 : ResultBlock :=
  { priceEl := some ⟨"$512", "$512"⟩
    airlineEl := some ⟨"", "Lufthansa"⟩
    logoImg := none
    segments := []
    spans := ["9:30 AM", "10:45 PM"]
    textNodes := ["Lufthansa", "$512", "9:30 AM", "10:45 PM", "13h 15m", "Nonstop"]
    durationEl := some ⟨"Duration", "13h 15m"⟩
    stopsEl := some ⟨"Nonstop", "Nonstop"⟩ }

/-- Twenty attempt timestamps recorded at instant 0: a full trailing
window when observed at instant 100. -/
def storedFull : List ℚ :=
  [0, 0, 0, 0, 0, 0, 0, 0, 0, 0, 0, 0, 0, 0, 0, 0, 0, 0, 0, 0]

/-! ### Helper lemmas -/

/-- Python truthiness of an optional string coincides with being a
nonempty present value. -/
theorem pyTruthy_iff (o : Option String) : pyTruthy o = true ↔ pyPresent o := by
  cases o with
  | none => simp [pyTruthy, pyPresent]
  | some s => simp [pyTruthy, pyPresent]

/-- Filtering with a stronger predicate keeps at most as many elements. -/
theorem length_filter_mono {α : Type} (l : List α) (p q : α → Bool)
    (h : ∀ a ∈ l, p a = true → q a = true) :
    (l.filter p).length ≤ (l.filter q).length := by
  induction l with
  | nil => simp
  | cons a t ih =>
    have iht := ih (fun x hx hp => h x (List.mem_cons_of_mem a hx) hp)
    by_cases hp : p a = true
    · simp only [List.filter_cons, hp, h a (List.mem_cons_self a t) hp, if_true,
        List.length_cons]
      omega
    · have hp' : p a = false := Bool.eq_false_iff.mpr hp
      by_cases hq : q a = true
      · simp only [List.filter_cons, hp', hq, Bool.false_eq_true, if_false, if_true,
          List.length_cons]
        omega
      · have hq' : q a = false := Bool.eq_false_iff.mpr hq
        simp only [List.filter_cons, hp', hq', Bool.false_eq_true, if_false]
        exact iht

/-! ### C9: the query encoder embeds origin, destination and date -/

/-- C9: encoding the search request origin `JFK`, destination `LAX`, date
`2025-03-01`, adults 2 produces a URL whose encoded query text contains
`JFK`, `LAX` and `2025-03-01` as substrings. -/
theorem search_url_embeds_request :
    containsSub "JFK" (build_search_url "JFK" "LAX" "2025-03-01" none 2) = true ∧
    containsSub "LAX" (build_search_url "JFK" "LAX" "2025-03-01" none 2) = true ∧
    containsSub "2025-03-01" (build_search_url "JFK" "LAX" "2025-03-01" none 2) = true := by
  refine ⟨?_, ?_, ?_⟩ <;> decide

/-! ### C2: the completeness gate -/

/-- C2, counterexample: a block whose airline field is present (the locator
chain did not return absent — the Python variable holds `""`, not `None`)
and whose four other required fields are present and nonempty is
nevertheless dropped, because the source's gate tests Python truthiness
rather than non-absence.  So "emitted iff the five fields are non-absent"
is false as stated. -/
theorem completeness_gate_cex :
    (extractPrice blockEmptyAirline).isSome = true ∧
    (extractAirline blockEmptyAirline).isSome = true ∧
    (extractTimes blockEmptyAirline).1.isSome = true ∧
    (extractTimes blockEmptyAirline).2.isSome = true ∧
    (extractDuration blockEmptyAirline).isSome = true ∧
    extractAirline blockEmptyAirline = some "" ∧
    processBlock blockEmptyAirline = none := by
  refine ⟨?_, ?_, ?_, ?_, ?_, ?_, ?_⟩ <;> decide

/-- C2, amended: a result block yields a flight record if and only if
airline, departure time, arrival time, duration and price are all present
and nonempty (Python-truthy); stops is exempt. -/
theorem completeness_gate (b : ResultBlock) :
    (∃ r, processBlock b = some r) ↔
      (pyPresent (extractAirline b) ∧ pyPresent (extractTimes b).1 ∧
       pyPresent (extractTimes b).2 ∧ pyPresent (extractDuration b) ∧
       pyPresent (extractPrice b)) := by
  have hiff : (∃ r, processBlock b = some r) ↔
      (pyTruthy (extractPrice b) && pyTruthy (extractAirline b) &&
       pyTruthy (extractTimes b).1 && pyTruthy (extractTimes b).2 &&
       pyTruthy (extractDuration b)) = true := by
    simp only [processBlock]
    split
    · simp_all
    · simp_all
  rw [hiff]
  simp only [Bool.and_eq_true, pyTruthy_iff]
  tauto

/-! ### C7: a malformed block never disturbs its neighbours -/

/-- C7: a block that produces no record — whether it fails the completeness
gate or raises (which the source catches and turns into `continue`) —
leaves the extraction of every other block unchanged: the page result is
the same as if the block were absent. -/
theorem malformed_block_isolated (pre post : List ResultBlock) (b : ResultBlock)
    (h : processBlock b = none) :
    extract_flight_data (pre ++ b :: post) = extract_flight_data (pre ++ post) := by
  simp [extract_flight_data, List.filterMap_append, List.filterMap_cons, h]

/-- C7, witness: a page holding a healthy block followed by a block with no
price extracts exactly as the page without the malformed block, and the
healthy block does produce its record. -/
theorem malformed_block_isolated_witness :
    processBlock blockNoPrice = none ∧
    extract_flight_data ([blockComplete] ++ blockNoPrice :: []) =
      extract_flight_data ([blockComplete] ++ []) ∧
    extract_flight_data ([blockComplete] ++ []) =
      [⟨"United", "8:00 AM", "11:00 AM", "3h", "Nonstop", "$300"⟩] :=
  ⟨by decide, malformed_block_isolated [blockComplete] [] blockNoPrice (by decide), by decide⟩

/-! ### C8: an empty extraction is still a success outcome -/

/-- C8: whenever a 200-fetched page yields zero records — no containers at
all, or containers that all fail completeness — the orchestrator returns
the success envelope with an empty flight list and count zero, never the
error envelope.  (The accompanying warning is the logging side effect at
src/app.py line 293, outside this pure model.) -/
theorem empty_extraction_is_success (o d dt ts : String) (r : Option String)
    (blocks : List ResultBlock) (h : extract_flight_data blocks = []) :
    scrape_flights o d dt r ts (.ok 200 blocks) = .success o d dt r [] ts 0 := by
  simp [scrape_flights, h]

/-- C8, witness: a page with no containers, and a page whose only container
is unusable, both map to the empty success envelope. -/
theorem empty_extraction_is_success_witness :
    extract_flight_data [blockUnusable] = [] ∧
    scrape_flights "JFK" "LAX" "2025-03-01" none "2025-01-01T00:00:00"
      (.ok 200 [blockUnusable]) =
      .success "JFK" "LAX" "2025-03-01" none [] "2025-01-01T00:00:00" 0 ∧
    scrape_flights "JFK" "LAX" "2025-03-01" none "2025-01-01T00:00:00"
      (.ok 200 []) =
      .success "JFK" "LAX" "2025-03-01" none [] "2025-01-01T00:00:00" 0 :=
  ⟨by decide,
   empty_extraction_is_success _ _ _ _ _ _ (by decide),
   empty_extraction_is_success _ _ _ _ _ _ rfl⟩

/-! ### C4: the success gate is status = 200, not 2xx -/

/-- C4, counterexample: 204 is a 2xx status, yet the orchestrator returns
the Failed envelope for it, because the source (src/app.py line 315) tests
`status_code != 200` rather than the 2xx range. -/
theorem status_gate_cex :
    ((200 ≤ 204 ∧ 204 < 300) ∧
      scrape_flights "JFK" "LAX" "2025-03-01" none "2025-01-01T00:00:00"
        (.ok 204 []) = .failure (statusFailMsg 204)) ∧
    scrape_flights "JFK" "LAX" "2025-03-01" none "2025-01-01T00:00:00"
      (.ok 429 []) = .failure (statusFailMsg 429) :=
  ⟨⟨⟨by omega, by omega⟩, rfl⟩, rfl⟩

/-- C4, amended: the orchestrator proceeds to extraction and a success
outcome exactly when the response status equals 200; every other status
(including other 2xx codes and 429) yields the Failed envelope carrying the
status code, and a transport error yields the Failed envelope carrying the
transport message.  No retry exists: the outcome is a function of the
single fetch result. -/
theorem status_gate (o d dt ts : String) (r : Option String) (status : Nat)
    (blocks : List ResultBlock) (m : String) :
    (status = 200 →
      scrape_flights o d dt r ts (.ok status blocks) =
        .success o d dt r (extract_flight_data blocks) ts
          (extract_flight_data blocks).length) ∧
    (status ≠ 200 →
      scrape_flights o d dt r ts (.ok status blocks) =
        .failure (statusFailMsg status)) ∧
    scrape_flights o d dt r ts (.transportError m) =
      .failure ("Request error: " ++ m) := by
  refine ⟨fun h => ?_, fun h => ?_, rfl⟩
  · simp [scrape_flights, h]
  · simp [scrape_flights, h]

/-- C4, witness: the three branches at concrete inputs. -/
theorem status_gate_witness :
    scrape_flights "JFK" "LAX" "2025-03-01" none "2025-01-01T00:00:00"
      (.ok 200 []) =
      .success "JFK" "LAX" "2025-03-01" none (extract_flight_data []) "2025-01-01T00:00:00"
        (extract_flight_data []).length ∧
    scrape_flights "JFK" "LAX" "2025-03-01" none "2025-01-01T00:00:00"
      (.ok 503 []) = .failure (statusFailMsg 503) ∧
    scrape_flights "JFK" "LAX" "2025-03-01" none "2025-01-01T00:00:00"
      (.transportError "timeout") = .failure ("Request error: " ++ "timeout") :=
  ⟨(status_gate "JFK" "LAX" "2025-03-01" "2025-01-01T00:00:00" none 200 [] "x").1 rfl,
   (status_gate "JFK" "LAX" "2025-03-01" "2025-01-01T00:00:00" none 503 [] "x").2.1
     (by omega),
   (status_gate "JFK" "LAX" "2025-03-01" "2025-01-01T00:00:00" none 200 [] "timeout").2.2⟩

/-! ### C10: internal consistency of the success envelope -/

/-- C10: every success envelope the orchestrator produces echoes the
request's origin, destination, date and return date, and its results_count
equals the length of its flight list. -/
theorem success_envelope_consistent (o d dt ts : String) (r : Option String)
    (resp : FetchResult) (o' d' dt' ts' : String) (r' : Option String)
    (fl : List FlightRecord) (n : Nat)
    (h : scrape_flights o d dt r ts resp = .success o' d' dt' r' fl ts' n) :
    o' = o ∧ d' = d ∧ dt' = dt ∧ r' = r ∧ ts' = ts ∧ n = fl.length := by
  cases resp with
  | transportError m => simp [scrape_flights] at h
  | ok status blocks =>
    by_cases hs : status = 200
    · subst hs
      simp only [scrape_flights] at h
      rw [if_neg (by omega)] at h
      simp only [Outcome.success.injEq] at h
      rcases h with ⟨ho, hd, hdt, hr, hfl, hts, hn⟩
      exact ⟨ho.symm, hd.symm, hdt.symm, hr.symm, hts.symm, by rw [← hn, hfl]⟩
    · rw [scrape_flights] at h
      rw [if_pos hs] at h
      exact absurd h (by simp)

/-- C10, witness: a concrete successful scrape of one extractable block
satisfies the envelope consistency facts. -/
theorem success_envelope_consistent_witness :
    "JFK" = "JFK" ∧ "LAX" = "LAX" ∧ "2025-03-01" = "2025-03-01" ∧
    (some "2025-03-08" : Option String) = some "2025-03-08" ∧
    "2025-01-01T00:00:00" = "2025-01-01T00:00:00" ∧
    1 = [(⟨"Lufthansa", "9:30 AM", "10:45 PM", "13h 15m", "Nonstop", "$512"⟩ :
      FlightRecord)].length :=
  success_envelope_consistent "JFK" "LAX" "2025-03-01" "2025-01-01T00:00:00"
    (some "2025-03-08") (.ok 200 [blockComplete2]) "JFK" "LAX" "2025-03-01"
    "2025-01-01T00:00:00" (some "2025-03-08")
    [⟨"Lufthansa", "9:30 AM", "10:45 PM", "13h 15m", "Nonstop", "$512"⟩] 1 (by decide)

/-! ### C5 and C6: the quota wait and the pacing delay -/

/-- The quota sleep is never negative: when it fires, the oldest pruned
timestamp is inside the trailing hour, so the computed sleep exceeds one
second. -/
theorem quotaSleep_nonneg (stored : List ℚ) (c : ℚ) : 0 ≤ quotaSleep stored c := by
  rw [quotaSleep]
  split
  case isTrue h =>
    have hne : prune c stored ≠ [] := by
      intro he
      rw [he] at h
      simp [MAX_REQUESTS_PER_HOUR] at h
    obtain ⟨x, tl, hx⟩ := List.exists_cons_of_ne_nil hne
    have hmem : x ∈ prune c stored := by
      rw [hx]
      exact List.mem_cons_self x tl
    have hlt : c - x < 3600 := by
      have := (List.mem_filter.mp hmem).2
      exact of_decide_eq_true this
    rw [hx, List.headI_cons]
    linarith
  case isFalse h => exact le_refl 0

/-- Pruning the full twenty-timestamp state at instant 100 keeps all
twenty entries. -/
theorem prune_storedFull : prune 100 storedFull = storedFull := by
  rw [prune, storedFull]
  norm_num [List.filter]

/-- C5, counterexample: on a full window the computed quota wait is the
time until the oldest in-window attempt expires plus exactly the constant
one second — a deterministic margin, not a random jitter.  At twenty
attempts recorded at instant 0 and observed at instant 100, the expiry time
is 3500 and the wait is 3501, whatever the random draw of the pacing sleep
may be. -/
theorem quota_wait_jitter_cex :
    timeUntilOldestExpires storedFull 100 = 3500 ∧
    quotaSleep storedFull 100 = 3501 ∧
    quotaSleep storedFull 100 = timeUntilOldestExpires storedFull 100 + 1 := by
  have h1 : timeUntilOldestExpires storedFull 100 = 3500 := by
    rw [timeUntilOldestExpires, prune_storedFull, storedFull, List.headI_cons]
    norm_num
  have h2 : quotaSleep storedFull 100 = 3501 := by
    rw [quotaSleep, if_pos]
    · rw [prune_storedFull, storedFull, List.headI_cons]
      norm_num
    · rw [prune_storedFull, storedFull, MAX_REQUESTS_PER_HOUR]
      norm_num
  refine ⟨h1, h2, ?_⟩
  rw [h1, h2]
  norm_num

/-- C5, amended: when the in-window count has reached the hourly ceiling,
the quota wait equals the time until the oldest in-window attempt expires
plus a constant one-second margin (deterministic, not random); otherwise —
in particular whenever the window is empty — the wait is zero. -/
theorem quota_wait_spec (stored : List ℚ) (c : ℚ) :
    (MAX_REQUESTS_PER_HOUR ≤ (prune c stored).length →
      quotaSleep stored c = timeUntilOldestExpires stored c + 1) ∧
    ((prune c stored).length < MAX_REQUESTS_PER_HOUR → quotaSleep stored c = 0) ∧
    (stored = [] → quotaSleep stored c = 0) := by
  refine ⟨fun h => ?_, fun h => ?_, fun h => ?_⟩
  · rw [quotaSleep, if_pos h, timeUntilOldestExpires]
    ring
  · rw [quotaSleep, if_neg (by omega)]
  · subst h
    rw [quotaSleep, if_neg]
    simp [prune, MAX_REQUESTS_PER_HOUR]

/-- C5, witness: the full-window branch at the concrete full state, and the
empty-window branch. -/
theorem quota_wait_spec_witness :
    quotaSleep storedFull 100 = timeUntilOldestExpires storedFull 100 + 1 ∧
    quotaSleep [] 0 = 0 :=
  ⟨(quota_wait_spec storedFull 100).1
     (by rw [prune_storedFull, storedFull, MAX_REQUESTS_PER_HOUR]; norm_num),
   (quota_wait_spec [] 0).2.2 rfl⟩

/-- C6, counterexample: the configured pacing interval is 5 to 10 seconds
(src/app.py lines 35-36), not the 5 to 15 seconds the claim states. -/
theorem pacing_interval_cex :
    MIN_WAIT_TIME = 5 ∧ MAX_WAIT_TIME = 10 ∧ MAX_WAIT_TIME ≠ 15 := by
  refine ⟨rfl, rfl, ?_⟩
  rw [MAX_WAIT_TIME]
  norm_num

/-- C6, amended: every pacing-gate acquisition adds an unconditional
uniformly-drawn delay from the configured interval, whose default is 5 to
10 seconds, on top of any quota wait; hence the total delay introduced is
at least the configured minimum bound whatever the quota state. -/
theorem pacing_min_delay (s : RL) (k : Call) (h : MIN_WAIT_TIME ≤ k.u) :
    MIN_WAIT_TIME ≤ totalPacingDelay s k := by
  have h0 : 0 ≤ quotaSleep s.stored (s.now + k.gap) := quotaSleep_nonneg _ _
  rw [totalPacingDelay]
  linarith

/-- C6, witness: with an empty quota window and the draw 7, the delay is
at least the 5-second minimum. -/
theorem pacing_min_delay_witness :
    MIN_WAIT_TIME ≤ (⟨0, 0, 7⟩ : Call).u ∧
    MIN_WAIT_TIME ≤ totalPacingDelay ⟨[], 0⟩ ⟨0, 0, 7⟩ :=
  ⟨by rw [MIN_WAIT_TIME]; norm_num,
   pacing_min_delay ⟨[], 0⟩ ⟨0, 0, 7⟩ (by rw [MIN_WAIT_TIME]; norm_num)⟩

/-! ### C3: the shape of the stops field -/

/-- Every character of a digit run is a digit. -/
theorem digitRun_digits (l : List Char) : ∀ c ∈ (digitRun l).1, c.isDigit = true := by
  induction l with
  | nil => simp [digitRun]
  | cons a t ih =>
    by_cases ha : a.isDigit = true
    · simp only [digitRun, ha, if_true]
      intro c hc
      rcases List.mem_cons.mp hc with h | h
      · rw [h]; exact ha
      · exact ih c h
    · simp [digitRun, Bool.eq_false_iff.mpr ha]

/-- Every character of a whitespace run is whitespace. -/
theorem spaceRun_spaces (l : List Char) : ∀ c ∈ (spaceRun l).1, isPySpace c = true := by
  induction l with
  | nil => simp [spaceRun]
  | cons a t ih =>
    by_cases ha : isPySpace a = true
    · simp only [spaceRun, ha, if_true]
      intro c hc
      rcases List.mem_cons.mp hc with h | h
      · rw [h]; exact ha
      · exact ih c h
    · simp [spaceRun, Bool.eq_false_iff.mpr ha]

/-- The digit run of a list of digits followed by a non-digit is exactly
that list. -/
theorem digitRun_append (ds rest : List Char) (h1 : ∀ c ∈ ds, c.isDigit = true)
    (h2 : ∀ c t, rest = c :: t → c.isDigit = false) :
    digitRun (ds ++ rest) = (ds, rest) := by
  induction ds with
  | nil =>
    simp only [List.nil_append]
    cases rest with
    | nil => rfl
    | cons c t => simp [digitRun, h2 c t rfl]
  | cons d ds ih =>
    have hd : d.isDigit = true := h1 d (List.mem_cons_self d ds)
    have ih' := ih (fun c hc => h1 c (List.mem_cons_of_mem d hc))
    simp [digitRun, hd, ih']

/-- The whitespace run of a list of whitespace followed by a non-space is
exactly that list. -/
theorem spaceRun_append (ws rest : List Char) (h1 : ∀ c ∈ ws, isPySpace c = true)
    (h2 : ∀ c t, rest = c :: t → isPySpace c = false) :
    spaceRun (ws ++ rest) = (ws, rest) := by
  induction ws with
  | nil =>
    simp only [List.nil_append]
    cases rest with
    | nil => rfl
    | cons c t => simp [spaceRun, h2 c t rfl]
  | cons w ws ih =>
    have hw : isPySpace w = true := h1 w (List.mem_cons_self w ws)
    have ih' := ih (fun c hc => h1 c (List.mem_cons_of_mem w hc))
    simp [spaceRun, hw, ih']

/-- A whitespace character is not a digit. -/
theorem isPySpace_not_digit (c : Char) (h : isPySpace c = true) : c.isDigit = false := by
  rw [isPySpace] at h
  simp only [Bool.or_eq_true, beq_iff_eq] at h
  rcases h with ((((h | h) | h) | h) | h) | h <;> subst h <;> rfl

/-- Any successful stops-regex search returns a digit run, a nonempty
whitespace run, then the literal `stops`. -/
theorem stopsSearchL_shape (l : List Char) :
    ∀ g, stopsSearchL l = some g →
      ∃ ds ws, g = ds ++ ws ++ "stops".data ∧ ds ≠ [] ∧ ws ≠ [] ∧
        (∀ c ∈ ds, c.isDigit = true) ∧ (∀ c ∈ ws, isPySpace c = true) := by
  induction l with
  | nil => intro g hg; simp [stopsSearchL] at hg
  | cons c t ih =>
    intro g hg
    by_cases hc : c.isDigit = true
    · rw [stopsSearchL] at hg
      simp only [hc, if_true] at hg
      split at hg
      next hcond =>
        have hg' := Option.some.inj hg
        refine ⟨(digitRun (c :: t)).1, (spaceRun (digitRun (c :: t)).2).1, hg'.symm,
          ?_, ?_, digitRun_digits _, spaceRun_spaces _⟩
        · simp [digitRun, hc]
        · simp only [Bool.and_eq_true, Bool.not_eq_true'] at hcond
          intro he
          rw [he] at hcond
          simp at hcond
      next hcond => exact ih g hg
    · rw [stopsSearchL] at hg
      simp only [Bool.eq_false_iff.mpr hc, Bool.false_eq_true, if_false] at hg
      exact ih g hg

/-- Strings of the shape digit-run, whitespace-run, `stops` satisfy the
loose normalized-stops predicate. -/
theorem isLoose_of_shape (ds ws : List Char) (hds : ds ≠ []) (hws : ws ≠ [])
    (hd : ∀ c ∈ ds, c.isDigit = true) (hw : ∀ c ∈ ws, isPySpace c = true) :
    isLooseNormalizedStops (String.mk (ds ++ ws ++ "stops".data)) = true := by
  have hdr : digitRun (ds ++ (ws ++ "stops".data)) = (ds, ws ++ "stops".data) := by
    apply digitRun_append ds _ hd
    intro c u hct
    cases ws with
    | nil => exact absurd rfl hws
    | cons w wt =>
      rw [List.cons_append] at hct
      injection hct with hc1 hc2
      rw [← hc1]
      exact isPySpace_not_digit w (hw w (List.mem_cons_self w wt))
  have hsr : spaceRun (ws ++ "stops".data) = (ws, "stops".data) := by
    apply spaceRun_append ws _ hw
    intro c u hct
    have hst : "stops".data = 's' :: "tops".data := rfl
    rw [hst] at hct
    injection hct with hc1 hc2
    rw [← hc1]
    rfl
  have hdata : (String.mk (ds ++ ws ++ "stops".data)).data = ds ++ (ws ++ "stops".data) := by
    simp [List.append_assoc]
  rw [isLooseNormalizedStops, hdata, hdr]
  simp only [hsr]
  have h1 : ds.isEmpty = false := by
    cases ds with
    | nil => exact absurd rfl hds
    | cons d dt => rfl
  have h2 : ws.isEmpty = false := by
    cases ws with
    | nil => exact absurd rfl hws
    | cons w wt => rfl
  simp [h1, h2]

/-- The text-node fallback leaves the default in place when no node holds
stop information. -/
theorem stopsFallback_default (nodes : List String) (h : noStopInfo nodes = true) :
    stopsFallback nodes = "Nonstop" := by
  induction nodes with
  | nil => rfl
  | cons n rest ih =>
    rw [noStopInfo, List.all_cons] at h
    simp only [Bool.and_eq_true, Bool.not_eq_true'] at h
    obtain ⟨⟨h1, h2⟩, hrest⟩ := h
    rw [stopsFallback]
    simp only [h1, Bool.false_eq_true, if_false, h2]
    exact ih (by rw [noStopInfo]; exact hrest)

/-- C3, counterexample: a complete block whose only stop language is the
text node `"1 stop over JFK"` is emitted with stops exactly `"1 stop over
JFK"` — the raw stripped node text — which is none of the normalized
shapes. -/
theorem stops_normalization_cex :
    extract_flight_data [blockRawStops] =
      [⟨"Delta", "9:00 AM", "5:00 PM", "8h", "1 stop over JFK", "$250"⟩] ∧
    isNormalizedStops "1 stop over JFK" = false := by
  refine ⟨?_, ?_⟩ <;> decide

/-- C3, amended: when the stop information comes from a labelled stops
element the extracted stops value is `"Nonstop"`, `"1 stop"`, or a digit
run followed by whitespace and `stops` (the regex group `\d+\s+stops`),
and when the block holds no stop information at all the value defaults to
`"Nonstop"`; but the raw text-node fallback may yield arbitrary stripped
node text such as `"1 stop over JFK"`. -/
theorem stops_shape (b : ResultBlock) :
    (b.stopsEl.isSome = true → isLooseNormalizedStops (extractStops b) = true) ∧
    (b.stopsEl = none → noStopInfo b.textNodes = true →
      extractStops b = "Nonstop") := by
  constructor
  · intro h
    obtain ⟨el, hel⟩ := Option.isSome_iff_exists.mp h
    simp only [extractStops, hel]
    by_cases h1 : containsSub "nonstop" (asciiLower (pyStrip el.text)) = true
    · simp only [h1, if_true]
      decide
    · simp only [Bool.eq_false_iff.mpr h1, Bool.false_eq_true, if_false]
      by_cases h2 : containsSub "1 stop" (asciiLower (pyStrip el.text)) = true
      · simp only [h2, if_true]
        decide
      · simp only [Bool.eq_false_iff.mpr h2, Bool.false_eq_true, if_false]
        cases hs : stopsSearchL (asciiLower (pyStrip el.text)).data with
        | none => decide
        | some g =>
          obtain ⟨ds, ws, hg, hds, hws, hd, hw⟩ := stopsSearchL_shape _ g hs
          rw [hg]
          exact isLoose_of_shape ds ws hds hws hd hw
  · intro h hn
    simp only [extractStops, h]
    exact stopsFallback_default _ hn

/-- C3, witness: a labelled `"2 stops via ORD"` element normalizes to the
loose shape, and a block with no stop markup defaults to `"Nonstop"`. -/
theorem stops_shape_witness :
    isLooseNormalizedStops (extractStops blockLabelledStops) = true ∧
    extractStops blockNoStopMarkup = "Nonstop" :=
  ⟨(stops_shape blockLabelledStops).1 rfl,
   (stops_shape blockNoStopMarkup).2 rfl (by decide)⟩

/-! ### C1: the trailing-window bound on recorded attempts -/

/-- Elements kept by pruning lie in the source list and inside the
trailing hour. -/
theorem mem_prune {c a : ℚ} {l : List ℚ} (h : a ∈ prune c l) :
    a ∈ l ∧ c - a < 3600 :=
  ⟨(List.mem_filter.mp h).1, of_decide_eq_true (List.mem_filter.mp h).2⟩

/-- In-window elements of the source list survive pruning. -/
theorem mem_prune_of {c a : ℚ} {l : List ℚ} (ha : a ∈ l) (hw : c - a < 3600) :
    a ∈ prune c l :=
  List.mem_filter.mpr ⟨ha, decide_eq_true hw⟩

/-- One limiter step preserves the history invariant: the call's clock
reading `c` is no earlier than the state's instant, the appended timestamp
`t` lies at least five seconds after `c`, and when the pruned window was
full, `t` lies past the expiry of the oldest pruned timestamp. -/
theorem rlInv_step_aux (hist stored : List ℚ) (now c t : ℚ)
    (hnc : now ≤ c) (hct5 : c + 5 ≤ t)
    (hfull : MAX_REQUESTS_PER_HOUR ≤ (prune c stored).length →
      (prune c stored).headI + 3600 < t)
    (inv : RLInv hist ⟨stored, now⟩) :
    RLInv (hist ++ [t]) ⟨prune c stored ++ [t], t⟩ := by
  obtain ⟨bounded, tracked, storedSub, histNodup, storedNodup, windowOk⟩ := inv
  dsimp only at bounded tracked storedSub
  have hct : c < t := by linarith
  have hnt : now < t := lt_of_le_of_lt hnc hct
  have hb : ∀ a ∈ hist, a < t := fun a ha => lt_of_le_of_lt (bounded a ha) hnt
  have hprsub : prune c stored ⊆ hist := fun a ha => storedSub (mem_prune ha).1
  refine ⟨?_, ?_, ?_, ?_, ?_, ?_⟩ <;> dsimp only
  · -- bounded
    intro a ha
    rcases List.mem_append.mp ha with h | h
    · exact le_of_lt (hb a h)
    · rw [List.mem_singleton.mp h]
  · -- tracked
    intro a ha
    rcases List.mem_append.mp ha with h | h
    · rcases tracked a h with h2 | h2
      · exact Or.inl (by linarith)
      · by_cases hw : c - a < 3600
        · exact Or.inr (List.mem_append_left _ (mem_prune_of h2 hw))
        · exact Or.inl (by linarith [not_lt.mp hw])
    · rw [List.mem_singleton.mp h]
      exact Or.inr (List.mem_append_right _ (List.mem_singleton_self t))
  · -- storedSub
    intro a ha
    rcases List.mem_append.mp ha with h | h
    · exact List.mem_append_left _ (hprsub h)
    · exact List.mem_append_right _ h
  · -- histNodup
    rw [List.nodup_append]
    refine ⟨histNodup, List.nodup_singleton t, ?_⟩
    intro a ha hmem
    exact absurd (List.mem_singleton.mp hmem) (ne_of_lt (hb a ha))
  · -- storedNodup
    rw [List.nodup_append]
    refine ⟨storedNodup.filter _, List.nodup_singleton t, ?_⟩
    intro a ha hmem
    exact absurd (List.mem_singleton.mp hmem) (ne_of_lt (hb a (hprsub ha)))
  · -- windowOk
    intro T
    rw [windowCount, List.filter_append, List.length_append]
    by_cases hw : inWindow T t = true
    · have h1 : (List.filter (inWindow T) [t]).length = 1 := by
        simp [List.filter_cons, hw]
      rw [h1]
      rw [inWindow, Bool.and_eq_true] at hw
      have hw1 : T - t < 3600 := of_decide_eq_true hw.1
      have hw2 : t ≤ T := of_decide_eq_true hw.2
      have s1 : (hist.filter (inWindow T)).length ≤
          (hist.filter (fun a => decide (t - a < 3600))).length := by
        apply length_filter_mono
        intro a _ hpa
        rw [inWindow, Bool.and_eq_true] at hpa
        have h3 : T - a < 3600 := of_decide_eq_true hpa.1
        have h4 : a ≤ T := of_decide_eq_true hpa.2
        exact decide_eq_true (by linarith)
      have s2 : hist.filter (fun a => decide (t - a < 3600)) ⊆
          List.filter (fun a => decide (t - a < 3600)) (prune c stored) := by
        intro a ha
        obtain ⟨hah, hap⟩ := List.mem_filter.mp ha
        have hta : t - a < 3600 := of_decide_eq_true hap
        have has : a ∈ stored := by
          rcases tracked a hah with h2 | h2
          · exact absurd hta (by linarith)
          · exact h2
        exact List.mem_filter.mpr ⟨mem_prune_of has (by linarith), hap⟩
      have s3 : (hist.filter (fun a => decide (t - a < 3600))).Nodup :=
        histNodup.filter _
      have s4 := (List.subperm_of_subset s3 s2).length_le
      have s5 : (prune c stored).length ≤ MAX_REQUESTS_PER_HOUR := by
        have hsub : prune c stored ⊆ hist.filter (inWindow c) := by
          intro a ha
          obtain ⟨has, haw⟩ := mem_prune ha
          refine List.mem_filter.mpr ⟨storedSub has, ?_⟩
          rw [inWindow, Bool.and_eq_true]
          exact ⟨decide_eq_true haw,
            decide_eq_true (le_trans (bounded a (storedSub has)) hnc)⟩
        have h6 := (List.subperm_of_subset (storedNodup.filter _) hsub).length_le
        have h7 := windowOk c
        rw [windowCount] at h7
        exact le_trans h6 h7
      by_cases hm : MAX_REQUESTS_PER_HOUR ≤ (prune c stored).length
      · have hhead := hfull hm
        have hne : prune c stored ≠ [] := by
          intro he
          rw [he] at hm
          simp [MAX_REQUESTS_PER_HOUR] at hm
        obtain ⟨x, tl, hx⟩ := List.exists_cons_of_ne_nil hne
        have hxP : decide (t - x < 3600) = false := by
          rw [hx, List.headI_cons] at hhead
          simp only [decide_eq_false_iff_not]
          intro hcon
          linarith
        have s6 : List.filter (fun a => decide (t - a < 3600)) (prune c stored) =
            List.filter (fun a => decide (t - a < 3600)) tl := by
          rw [hx, List.filter_cons, hxP]
          simp
        have s7 : (List.filter (fun a => decide (t - a < 3600)) tl).length ≤ tl.length :=
          List.length_filter_le _ tl
        have s8 : tl.length + 1 ≤ MAX_REQUESTS_PER_HOUR := by
          rw [hx] at s5
          simpa using s5
        rw [s6] at s4
        omega
      · have s9 : (List.filter (fun a => decide (t - a < 3600))
            (prune c stored)).length ≤ (prune c stored).length :=
          List.length_filter_le _ _
        omega
    · have h1 : (List.filter (inWindow T) [t]).length = 0 := by
        simp [List.filter_cons, Bool.eq_false_iff.mpr hw]
      rw [h1]
      have h2 := windowOk T
      rw [windowCount] at h2
      omega

/-- One `enforce_rate_limit` call with admissible inputs preserves the
invariant: the conditional quota sleep pushes the appended timestamp past
the expiry of the oldest in-window attempt, and the uniform sleep keeps it
at least five seconds after the clock reading. -/
theorem rlInv_step (hist : List ℚ) (s : RL) (k : Call)
    (hg : 0 ≤ k.gap) (he : 0 ≤ k.eps) (hu : MIN_WAIT_TIME ≤ k.u)
    (inv : RLInv hist s) :
    RLInv (hist ++ [(enforce_rate_limit s k).2]) (enforce_rate_limit s k).1 := by
  have hu5 : (5 : ℚ) ≤ k.u := by rw [MIN_WAIT_TIME] at hu; exact hu
  have hq := quotaSleep_nonneg s.stored (s.now + k.gap)
  show RLInv
    (hist ++ [s.now + k.gap + quotaSleep s.stored (s.now + k.gap) + k.u + k.eps])
    ⟨prune (s.now + k.gap) s.stored ++
      [s.now + k.gap + quotaSleep s.stored (s.now + k.gap) + k.u + k.eps],
      s.now + k.gap + quotaSleep s.stored (s.now + k.gap) + k.u + k.eps⟩
  refine rlInv_step_aux hist s.stored s.now (s.now + k.gap) _ (by linarith)
    (by linarith) (fun hm => ?_) inv
  rw [quotaSleep, if_pos hm]
  linarith

/-- Running any admissible call sequence from an invariant state keeps
every trailing window of the extended history at or under the ceiling. -/
theorem rlRun_windowOk (calls : List Call) :
    ∀ (s : RL) (hist : List ℚ), (∀ k ∈ calls, GoodCall k) → RLInv hist s →
      ∀ T, windowCount T (hist ++ (rlRun s calls).2) ≤ MAX_REQUESTS_PER_HOUR := by
  induction calls with
  | nil =>
    intro s hist _ inv T
    simpa [rlRun] using inv.windowOk T
  | cons k ks ih =>
    intro s hist hG inv T
    have hk := hG k (List.mem_cons_self k ks)
    have inv' := rlInv_step hist s k hk.1 hk.2.1 hk.2.2.1 inv
    have h2 := ih (enforce_rate_limit s k).1 (hist ++ [(enforce_rate_limit s k).2])
      (fun k' hk' => hG k' (List.mem_cons_of_mem k hk')) inv' T
    rw [List.append_assoc, List.singleton_append] at h2
    simpa [rlRun] using h2

/-- C1: over every admissible sequence of gated fetch attempts from a fresh
process, the number of attempt timestamps recorded within any trailing
3600-second window never exceeds the hourly ceiling
MAX_REQUESTS_PER_HOUR = 20. -/
theorem rate_limit_window_bound (t0 T : ℚ) (calls : List Call)
    (hG : ∀ k ∈ calls, GoodCall k) :
    windowCount T (rlRun ⟨[], t0⟩ calls).2 ≤ MAX_REQUESTS_PER_HOUR := by
  have inv0 : RLInv [] ⟨[], t0⟩ := by
    refine ⟨?_, ?_, ?_, List.nodup_nil, List.nodup_nil, ?_⟩ <;>
      simp [windowCount]
  simpa using rlRun_windowOk calls ⟨[], t0⟩ [] hG inv0 T

/-- C1, witness: a concrete two-call run with admissible inputs stays under
the ceiling at a concrete window. -/
theorem rate_limit_window_bound_witness :
    (∀ k ∈ [(⟨0, 0, 5⟩ : Call), ⟨30, 1, 7⟩], GoodCall k) ∧
    windowCount 3700 (rlRun ⟨[], 0⟩ [(⟨0, 0, 5⟩ : Call), ⟨30, 1, 7⟩]).2 ≤
      MAX_REQUESTS_PER_HOUR := by
  have hG : ∀ k ∈ [(⟨0, 0, 5⟩ : Call), ⟨30, 1, 7⟩], GoodCall k := by
    intro k hk
    simp only [List.mem_cons, List.not_mem_nil, or_false] at hk
    rcases hk with h | h <;> subst h <;>
      exact ⟨by norm_num, by norm_num, by norm_num [MIN_WAIT_TIME],
        by norm_num [MAX_WAIT_TIME]⟩
  exact ⟨hG, rate_limit_window_bound 0 3700 _ hG⟩

end FlightApp

